import Mathlib

/-!
Verification of the read-through caching gateway (src/main.py, src/models.py,
src/database.py) against its natural-language specification.

Shallow embedding notes:

* JSON values manipulated by the engine are modelled by the inductive `JVal`
  (Python objects produced by `json.loads`).  Object fields are an association
  list with distinct keys, as in a Python dict; lookup follows dict access.
* Byte strings (HTTP bodies) are modelled by `Bytes`, quotienting a byte
  sequence by the only observations the code makes of it: a byte sequence is
  either valid UTF-8 — in which case it is uniquely determined by its decoded
  text (UTF-8 rejects overlong forms, so decoding is injective) — or invalid,
  represented by an opaque index.  `Bytes.text s` is the unique byte sequence
  decoding to `s`; `Bytes.binary i` is the `i`-th invalid sequence.  Equality
  of `Bytes` is byte-for-byte equality of the underlying sequences.
* Values held in the Redis store (strings, since the client is constructed
  with decode_responses=True) are modelled by `Blob`: a stored string either
  parses as JSON (`Blob.json j`, in particular the output of
  `json.dumps j`, giving the library round-trip `loads (dumps j) = j`) or it
  does not (`Blob.garbage s`, carrying the raw string so that Python
  truthiness of the empty string is observable).
* The JSON text parser applied to *origin response bodies* (`resp.json()`)
  is an external library function; it is passed around as an opaque
  parameter `jparse : String → Option JVal` (`none` = the parse raises).
  No theorem depends on its behaviour beyond applying it.
-/

/-- JSON values as produced by Python json.loads. -/
inductive JVal where
  | null : JVal
  | bool (b : Bool) : JVal
  | num (n : Int) : JVal
  | str (s : String) : JVal
  | arr (elems : List JVal) : JVal
  | obj (fields : List (String × JVal)) : JVal

/-- Python dict lookup on a JSON object's fields (keys are distinct). -/
def lookupField (fields : List (String × JVal)) (key : String) : Option JVal :=
  match fields with
  | [] => none
  | (k, v) :: rest => if k = key then some v else lookupField rest key

/-- Python truthiness of a JSON value (used by `if is_raw:` in proxy_request). -/
def truthy : JVal → Bool
  | .null => false
  | .bool b => b
  | .num n => !(n == 0)
  | .str s => !(s == "")
  | .arr xs => !xs.isEmpty
  | .obj fs => !fs.isEmpty

/-- Byte strings, quotiented by UTF-8 validity (see the module docstring). -/
inductive Bytes where
  | text (s : String) : Bytes
  | binary (id : Nat) : Bytes

/-- Python bytes.decode of a byte string: the decoded text when valid UTF-8,
none when the decode raises UnicodeDecodeError. -/
def decodeUtf8 : Bytes → Option String
  | .text s => some s
  | .binary _ => none

/-- The httpx resp.text view of a body: the decoded text for valid UTF-8; for
invalid bytes httpx still produces some fallback-decoded text, represented
here by a nonempty placeholder distinct per byte sequence. -/
def textOf : Bytes → String
  | .text s => s
  | .binary id => "<undecodable-" ++ Nat.repr id ++ ">"

/-- Values held in the Redis store (see the module docstring). -/
inductive Blob where
  | json (j : JVal) : Blob
  | garbage (s : String) : Blob

/-- Python json.dumps applied to a JSON value (the envelope written by the
engine); by the json library round-trip contract the result parses back to
the same value, so it is represented as `Blob.json`. -/
def dumps (j : JVal) : Blob := .json j

/-- Python json.loads applied to a stored string: the parsed value, or none
when the parse raises. -/
def loads : Blob → Option JVal
  | .json j => some j
  | .garbage _ => none

/-- Python truthiness of the string returned by redis get (`if cached:`):
json.dumps output is never empty, so only a stored empty string is falsy. -/
def blobTruthy : Blob → Bool
  | .json _ => true
  | .garbage s => !(s == "")

/-- The dict returned by paginate_data, as a tagged structure (fixed keys
data / total / page / limit / total_pages). -/
structure Paginated (α : Type) where
  data : List α
  total : Nat
  page : Nat
  limit : Nat
  total_pages : Nat
deriving Repr, DecidableEq

/-- paginate_data from src/main.py lines 43-53: Python list slice
items[start:end] with start = (page-1)*limit, end = start+limit (for the
validated domain page ≥ 1), and total_pages = (total + limit - 1) // limit. -/
def paginate_data {α : Type} (items : List α) (page limit : Nat) : Paginated α :=
  { data := (items.drop ((page - 1) * limit)).take limit
    total := items.length
    page := page
    limit := limit
    total_pages := (items.length + limit - 1) / limit }

/-- Outcome of an outbound httpx GET to the origin: either the network call
raises httpx.RequestError (timeout, connection refused, DNS failure), or a
response arrives with a status code, a Content-Type header and a body. -/
inductive OriginOutcome where
  | netError (msg : String) : OriginOutcome
  | response (status : Nat) (contentType : String) (body : Bytes) : OriginOutcome

/-- A FastAPI HTTPException: status code plus detail (any JSON value). -/
structure HTTPErr where
  status : Nat
  detail : JVal

/-- Origin body parse: resp.json() applies the JSON parser to the decoded
body text; an undecodable body cannot parse. -/
def jsonOfBody (jparse : String → Option JVal) : Bytes → Option JVal
  | .text s => jparse s
  | .binary _ => none

/-- The detail computed by forward_request (src/main.py lines 63-67) for an
upstream response with status at least 400: resp.json().get("detail", default)
when the body parses as a JSON object; the default when the object lacks the
field; on any exception (parse failure, or .get on a non-dict value) the raw
resp.text, with Python `or` substituting the default for empty text. -/
def upstreamDetail (jparse : String → Option JVal) (body : Bytes) : JVal :=
  match jsonOfBody jparse body with
  | some (.obj fields) =>
      match lookupField fields "detail" with
      | some d => d
      | none => .str "Error from upstream server"
  | _ =>
      if textOf body = "" then .str "Error from upstream server"
      else .str (textOf body)

/-- forward_request from src/main.py lines 55-75, specialised to raw=True
(the only way proxy_request calls it; the raw=False branch is never reached
from the modelled fragment).  A non-GET method raises HTTPException 405
before any network call; a network error raises HTTPException 503; an
upstream status of at least 400 raises HTTPException with that status and
the upstream detail; otherwise the raw body bytes are returned unchanged. -/
def forward_request (jparse : String → Option JVal) (method : String)
    (origin : OriginOutcome) : Except HTTPErr Bytes :=
  if method = "GET" then
    match origin with
    | .netError msg =>
        .error ⟨503, .str ("Upstream server unavailable: " ++ msg)⟩
    | .response st _ body =>
        if 400 ≤ st then
          .error ⟨st, upstreamDetail jparse body⟩
        else .ok body
  else .error ⟨405, .str "Method not allowed"⟩

/-- The Redis key/value store as consumed by the engine: a map from keys to
stored values (absent keys answer None). -/
def Store := String → Option Blob

/-- The empty cache. -/
def emptyStore : Store := fun _ => none

/-- Whole-entry overwrite performed by redis set. -/
def setStore (store : Store) (k : String) (v : Blob) : Store :=
  fun x => if x = k then some v else store x

/-- Per-request behaviour of the external world around one proxy_request
call: whether the redis get / set calls raise, the wall-clock time stored in
the envelope, and the outcome of the synchronous origin call (if made). -/
structure Env where
  getFails : Bool
  setFails : Bool
  now : Int
  origin : OriginOutcome

/-- Observable side effects of one proxy_request call: whether a redis get
was attempted, whether a background refresh was enqueued, whether the origin
client performed a network call, and whether a redis set was attempted. -/
structure Events where
  storeGet : Bool
  refreshScheduled : Bool
  originCalled : Bool
  storeSet : Bool
deriving Repr, DecidableEq

/-- What proxy_request delivers to the caller: a propagated HTTPException, a
starlette Response (raw bytes with an explicit media type), or a plain
Python value that FastAPI serialises as JSON. -/
inductive ProxyResult where
  | httpError (status : Nat) (detail : JVal) : ProxyResult
  | rawResponse (body : Bytes) (mediaType : String) : ProxyResult
  | jsonValue (v : JVal) : ProxyResult

/-- Construction of starlette Response(content=data): a str body is encoded
as UTF-8, None renders as an empty body, and every other content type
(int, bool, list, dict) raises inside Response.render because it has no
.encode method — modelled as none. -/
def render : JVal → Option Bytes
  | .str s => some (.text s)
  | .null => some (.text "")
  | _ => none

/-- The cache entry dict built by proxy_request lines 131-135 (and by
update_cache_from_origin lines 90-94). -/
def encodeEnvelope (payload : String) (now : Int) : JVal :=
  .obj [("payload", .str payload), ("is_raw", .bool true), ("timestamp", .num now)]

/-- Conversion of a Paginated record to the JSON value FastAPI serialises. -/
def paginatedToJVal (p : Paginated JVal) : JVal :=
  .obj [("data", .arr p.data), ("total", .num p.total), ("page", .num p.page),
        ("limit", .num p.limit), ("total_pages", .num p.total_pages)]

/-- The structured (legacy) hit path of proxy_request lines 117-120: a
cached JSON value that is not an envelope is returned directly, except that
a list with both page and limit supplied is paginated first. -/
def structuredServe (data : JVal) (page limit : Option Nat) : ProxyResult :=
  match data, page, limit with
  | .arr items, some p, some l => .jsonValue (paginatedToJVal (paginate_data items p l))
  | d, _, _ => .jsonValue d

/-- Evaluation of the inner try block of proxy_request lines 108-120 on a
successfully parsed cached value: none means the block raised (the except
at line 121 catches and the engine falls through to the origin path).  A
dict containing "payload" is an envelope: its payload is wrapped in a raw
Response when is_raw is truthy (raising if the payload has no .encode),
else returned directly; anything else goes to the structured path. -/
def hitServe (cachedObj : JVal) (page limit : Option Nat) : Option ProxyResult :=
  match cachedObj with
  | .obj fields =>
      match lookupField fields "payload" with
      | some data =>
          if truthy ((lookupField fields "is_raw").getD (.bool false)) then
            match render data with
            | some b => some (.rawResponse b "application/json")
            | none => none
          else some (.jsonValue data)
      | none => some (structuredServe (.obj fields) page limit)
  | j => some (structuredServe j page limit)

/-- The cache key derivation of proxy_request line 101. -/
def cacheKey (method path : String) : String := method ++ ":" ++ path

/-- The cache-lookup phase of proxy_request lines 103-124: the served result
(none = fall through to the origin path) together with whether a background
refresh was enqueued.  A redis get failure and an empty or unparseable
stored string all fall through; the refresh is enqueued (line 107) as soon
as a truthy cached string exists, before any parsing. -/
def cacheLookup (env : Env) (store : Store) (method path : String)
    (page limit : Option Nat) : Option ProxyResult × Bool :=
  if method = "GET" then
    if env.getFails then (none, false)
    else
      match store (cacheKey method path) with
      | some blob =>
          if blobTruthy blob then
            match loads blob with
            | some cachedObj => (hitServe cachedObj page limit, true)
            | none => (none, true)
          else (none, false)
      | none => (none, false)
  else (none, false)

/-- proxy_request from src/main.py lines 100-140, as a function of the
request environment and the current store, returning the delivered result,
the store after the synchronous path, and the observable events. -/
def proxy_request (jparse : String → Option JVal) (env : Env) (store : Store)
    (method path : String) (page limit : Option Nat) :
    ProxyResult × Store × Events :=
  match cacheLookup env store method path page limit with
  | (some r, sched) =>
      (r, store,
        { storeGet := method == "GET", refreshScheduled := sched,
          originCalled := false, storeSet := false })
  | (none, sched) =>
      match forward_request jparse method env.origin with
      | .error e =>
          (.httpError e.status e.detail, store,
            { storeGet := method == "GET", refreshScheduled := sched,
              originCalled := method == "GET", storeSet := false })
      | .ok body =>
          if method = "GET" then
            match decodeUtf8 body with
            | some s =>
                (.rawResponse body "application/json",
                  (if env.setFails then store
                   else setStore store (cacheKey method path)
                          (dumps (encodeEnvelope s env.now))),
                  { storeGet := true, refreshScheduled := sched,
                    originCalled := true, storeSet := true })
            | none =>
                (.rawResponse body "application/json", store,
                  { storeGet := true, refreshScheduled := sched,
                    originCalled := true, storeSet := false })
          else
            (.rawResponse body "application/json", store,
              { storeGet := false, refreshScheduled := sched,
                originCalled := false, storeSet := false })

/-- update_cache_from_origin from src/main.py lines 77-98 (the background
refresh task), as a store transformer: a non-GET method returns without a
network call; the store is written only when the origin answers exactly 200
with a UTF-8-decodable body and the redis set does not raise — every other
outcome (network error, non-200 status, undecodable body, set failure) is
swallowed by the except and leaves the store unchanged. -/
def update_cache_from_origin (origin : OriginOutcome) (setFails : Bool)
    (now : Int) (key method : String) (store : Store) : Store :=
  if method = "GET" then
    match origin with
    | .netError _ => store
    | .response st _ body =>
        if st = 200 then
          match decodeUtf8 body with
          | some s =>
              if setFails then store
              else setStore store key (dumps (encodeEnvelope s now))
          | none => store
        else store
  else store

/-- Python truthiness guard on the optional string query parameters of
get_requests (src/main.py lines 156-158): a parameter that is None or the
empty string contributes nothing to the upstream path. -/
def optQuery (name : String) (value : Option String) : String :=
  match value with
  | some s => if s = "" then "" else "&" ++ name ++ "=" ++ s
  | none => ""

/-- The upstream path built by get_requests (src/main.py lines 155-158);
page and limit are rendered with Python str on nonnegative integers. -/
def requestsPath (page limit : Nat) (sort_by order : String)
    (status search region : Option String) : String :=
  "/api/requests?page=" ++ Nat.repr page ++ "&limit=" ++ Nat.repr limit
    ++ "&sort_by=" ++ sort_by ++ "&order=" ++ order
    ++ optQuery "status" status ++ optQuery "search" search
    ++ optQuery "region" region

/-- Resolution of the limit query parameter of the read endpoints
(src/main.py line 148 with src/models.py line 33): a supplied value is
validated against PageLimit (ge=1, le=25; none models the 422 rejection),
but when the parameter is omitted FastAPI/pydantic substitutes the declared
default 50 without validating it (validate_default is off). -/
def resolveLimit (supplied : Option Int) : Option Int :=
  match supplied with
  | some v => if 1 ≤ v ∧ v ≤ 25 then some v else none
  | none => some 50

/-- Resolution of the page query parameter (PageNumber, ge=1, default 1,
src/main.py line 147 with src/models.py line 32). -/
def resolvePage (supplied : Option Int) : Option Int :=
  match supplied with
  | some v => if 1 ≤ v then some v else none
  | none => some 1

/-- A concrete parser instance (every parse raises) used to evaluate the
engine on closed inputs. -/
def noParse : String → Option JVal := fun _ => none

/-- C4: paginate_data is a pure function of (list, 1-based page, limit)
returning the slice [start, start+limit) with start = (page-1)*limit —
element i of the returned slice is element start+i of the list for every
i < limit — together with total = length, the echoed page and limit, and
total_pages equal to the ceiling division of total by limit (also
characterised by its adjunction: total_pages ≤ k iff total ≤ limit * k). -/
theorem paginate_data_spec {α : Type} (items : List α) (page limit : Nat)
    (hlimit : 1 ≤ limit) :
    (paginate_data items page limit).data
        = (items.drop ((page - 1) * limit)).take limit
    ∧ (∀ i, i < limit →
        (paginate_data items page limit).data[i]? = items[(page - 1) * limit + i]?)
    ∧ (paginate_data items page limit).total = items.length
    ∧ (paginate_data items page limit).page = page
    ∧ (paginate_data items page limit).limit = limit
    ∧ (paginate_data items page limit).total_pages = items.length ⌈/⌉ limit
    ∧ (∀ k, (paginate_data items page limit).total_pages ≤ k ↔ items.length ≤ limit * k) := by
  refine ⟨rfl, ?_, rfl, rfl, rfl, rfl, ?_⟩
  · intro i hi
    show ((items.drop ((page - 1) * limit)).take limit)[i]? = _
    rw [List.getElem?_take_of_lt hi, List.getElem?_drop]
  · intro k
    show items.length ⌈/⌉ limit ≤ k ↔ _
    exact ceilDiv_le_iff_le_mul (by omega)

/-- Witness for C4 at the spec's concrete instances: a 7-element list with
page 2, limit 3 yields the elements at indices 3-5, total 7, total_pages 3;
the empty list with page 1, limit 25 yields the empty slice, total_pages 0. -/
theorem paginate_data_spec_witness :
    (paginate_data [10, 20, 30, 40, 50, 60, 70] 2 3).data = [40, 50, 60]
    ∧ (paginate_data [10, 20, 30, 40, 50, 60, 70] 2 3).total = 7
    ∧ (paginate_data [10, 20, 30, 40, 50, 60, 70] 2 3).total_pages = 3
    ∧ (paginate_data ([] : List Nat) 1 25).data = []
    ∧ (paginate_data ([] : List Nat) 1 25).total_pages = 0 := by
  have h7 := paginate_data_spec [10, 20, 30, 40, 50, 60, 70] 2 3 (by decide)
  have h0 := paginate_data_spec ([] : List Nat) 1 25 (by decide)
  refine ⟨?_, h7.2.2.1, ?_, ?_, ?_⟩
  · rw [h7.1]; rfl
  · rw [h7.2.2.2.2.2.1]; rfl
  · rw [h0.1]; rfl
  · rw [h0.2.2.2.2.2.1]; rfl

/-- C7: a non-GET method submitted to proxy_request is rejected with
HTTPException 405 (raised by forward_request before any network call); no
redis get or set is attempted, no origin network call happens, no refresh
is scheduled, and the store is returned unchanged. -/
theorem proxy_request_non_get (jparse : String → Option JVal) (env : Env)
    (store : Store) (method path : String) (page limit : Option Nat)
    (h : method ≠ "GET") :
    proxy_request jparse env store method path page limit
      = (.httpError 405 (.str "Method not allowed"), store,
          { storeGet := false, refreshScheduled := false,
            originCalled := false, storeSet := false }) := by
  unfold proxy_request cacheLookup forward_request
  simp [h]

/-- Witness for C7: a POST with a live store and origin is rejected with
405 and touches nothing. -/
theorem proxy_request_non_get_witness :
    proxy_request noParse ⟨false, false, 0, .netError "down"⟩ emptyStore
        "POST" "/api/requests" none none
      = (.httpError 405 (.str "Method not allowed"), emptyStore,
          { storeGet := false, refreshScheduled := false,
            originCalled := false, storeSet := false }) :=
  proxy_request_non_get _ _ _ _ _ _ _ (by decide)

/-- C8 (code bug): the PageLimit type declares 1 ≤ limit ≤ 25 and supplied
values are validated against it, but the endpoints declare default 50
(src/main.py line 148), which pydantic substitutes unvalidated when the
caller omits the parameter — so the engine then forwards and paginates with
limit 50, violating the declared bound. -/
theorem limit_default_exceeds_bound :
    resolveLimit none = some 50
    ∧ ¬((50 : Int) ≤ 25)
    ∧ resolveLimit (some 50) = none
    ∧ resolveLimit (some 25) = some 25
    ∧ resolveLimit (some 0) = none := by
  refine ⟨rfl, by decide, ?_, ?_, ?_⟩ <;> simp [resolveLimit]

/-- A concrete parser recognising exactly one body, a JSON object without a
"detail" field (real json.loads behaviour on that text). -/
def parseNoDetail : String → Option JVal :=
  fun s => if s = "\x7b\"code\": 1\x7d" then some (.obj [("code", .num 1)]) else none

/-- A concrete parser recognising exactly one body, a JSON object carrying
a "detail" field (real json.loads behaviour on that text). -/
def parseDetail : String → Option JVal :=
  fun s =>
    if s = "\x7b\"detail\": \"not found\"\x7d" then
      some (.obj [("detail", .str "not found")])
    else none

/-- Counterexample to C2 as stated: an origin response with status 404
whose body is parseable JSON (an object) that merely lacks a "detail"
field does not surface the raw response text as detail — the caller
receives the fixed message "Error from upstream server" instead. -/
theorem forward_request_detail_counterexample :
    forward_request parseNoDetail "GET"
        (.response 404 "application/json" (.text "\x7b\"code\": 1\x7d"))
      = .error ⟨404, .str "Error from upstream server"⟩
    ∧ JVal.str "Error from upstream server" ≠ JVal.str "\x7b\"code\": 1\x7d" := by
  refine ⟨rfl, fun h => ?_⟩
  injection h with h'
  exact absurd h' (by decide)

/-- C2 amended: forward_request on the GET path classifies origin outcomes
as follows.  Status below 400 returns the raw body bytes unchanged.  A
network-level failure yields HTTPException 503 with a descriptive message.
Status at least 400 yields HTTPException with the origin's status code and,
as detail: the parsed "detail" field when the body parses as a JSON object
containing one; the fixed message "Error from upstream server" when the
body parses as a JSON object without one, or when the response text is
empty; otherwise the raw response text. -/
theorem forward_request_classified (jparse : String → Option JVal) :
    (∀ st ct body, st < 400 →
        forward_request jparse "GET" (.response st ct body) = .ok body)
    ∧ (∀ msg, forward_request jparse "GET" (.netError msg)
        = .error ⟨503, .str ("Upstream server unavailable: " ++ msg)⟩)
    ∧ (∀ st ct body fields d, 400 ≤ st →
        jsonOfBody jparse body = some (.obj fields) →
        lookupField fields "detail" = some d →
        forward_request jparse "GET" (.response st ct body) = .error ⟨st, d⟩)
    ∧ (∀ st ct body fields, 400 ≤ st →
        jsonOfBody jparse body = some (.obj fields) →
        lookupField fields "detail" = none →
        forward_request jparse "GET" (.response st ct body)
          = .error ⟨st, .str "Error from upstream server"⟩)
    ∧ (∀ st ct body, 400 ≤ st →
        (∀ fields, jsonOfBody jparse body ≠ some (.obj fields)) →
        textOf body ≠ "" →
        forward_request jparse "GET" (.response st ct body)
          = .error ⟨st, .str (textOf body)⟩)
    ∧ (∀ st ct body, 400 ≤ st →
        (∀ fields, jsonOfBody jparse body ≠ some (.obj fields)) →
        textOf body = "" →
        forward_request jparse "GET" (.response st ct body)
          = .error ⟨st, .str "Error from upstream server"⟩) := by
  refine ⟨?_, ?_, ?_, ?_, ?_, ?_⟩
  · intro st ct body h
    simp [forward_request, Nat.not_le.mpr h]
  · intro msg; rfl
  · intro st ct body fields d hst hj hd
    simp [forward_request, hst, upstreamDetail, hj, hd]
  · intro st ct body fields hst hj hd
    simp [forward_request, hst, upstreamDetail, hj, hd]
  · intro st ct body hst hj ht
    simp only [forward_request, if_pos rfl, if_pos hst]
    unfold upstreamDetail
    cases hjb : jsonOfBody jparse body with
    | none => simp [hjb, ht]
    | some v =>
        cases v with
        | obj fields => exact absurd hjb (hj fields)
        | null => simp [hjb, ht]
        | bool b => simp [hjb, ht]
        | num n => simp [hjb, ht]
        | str s => simp [hjb, ht]
        | arr xs => simp [hjb, ht]
  · intro st ct body hst hj ht
    simp only [forward_request, if_pos rfl, if_pos hst]
    unfold upstreamDetail
    cases hjb : jsonOfBody jparse body with
    | none => simp [hjb, ht]
    | some v =>
        cases v with
        | obj fields => exact absurd hjb (hj fields)
        | null => simp [hjb, ht]
        | bool b => simp [hjb, ht]
        | num n => simp [hjb, ht]
        | str s => simp [hjb, ht]
        | arr xs => simp [hjb, ht]

/-- Witness for the amended C2 at concrete inputs: a 200 returns the body
unchanged; a connection failure yields 503 with a descriptive message; a
404 with body carrying detail "not found" yields 404 with detail
"not found". -/
theorem forward_request_classified_witness :
    forward_request noParse "GET" (.response 200 "application/json" (.text "hi"))
      = .ok (.text "hi")
    ∧ forward_request noParse "GET" (.netError "connection refused")
      = .error ⟨503, .str "Upstream server unavailable: connection refused"⟩
    ∧ forward_request parseDetail "GET"
        (.response 404 "application/json" (.text "\x7b\"detail\": \"not found\"\x7d"))
      = .error ⟨404, .str "not found"⟩ :=
  ⟨(forward_request_classified noParse).1 200 _ _ (by decide),
   (forward_request_classified noParse).2.1 "connection refused",
   (forward_request_classified parseDetail).2.2.1 404 _ _
      [("detail", .str "not found")] (.str "not found") (by decide) rfl rfl⟩

/-- C10: on the miss path, an origin response with status below 400 whose
body is not valid UTF-8 is still returned byte-for-byte without raising;
the decode failure inside the store step is absorbed, no redis set is
attempted, the store is unchanged, and a subsequent request for the same
key is again a miss (it performs the synchronous origin call and no
refresh is scheduled). -/
theorem miss_undecodable_body_not_cached (jparse : String → Option JVal)
    (env env2 : Env) (store : Store) (path : String)
    (page limit page2 limit2 : Option Nat) (st : Nat) (ct : String) (id : Nat)
    (hmiss : store (cacheKey "GET" path) = none)
    (horigin : env.origin = .response st ct (.binary id))
    (hst : st < 400) :
    (proxy_request jparse env store "GET" path page limit).1
        = .rawResponse (.binary id) "application/json"
    ∧ (proxy_request jparse env store "GET" path page limit).2.1 = store
    ∧ (proxy_request jparse env store "GET" path page limit).2.2.storeSet = false
    ∧ (proxy_request jparse env2 store "GET" path page2 limit2).2.2.originCalled = true
    ∧ (proxy_request jparse env2 store "GET" path page2 limit2).2.2.refreshScheduled
        = false := by
  have hfwd : forward_request jparse "GET" env.origin = .ok (.binary id) := by
    rw [horigin]; simp [forward_request, Nat.not_le.mpr hst]
  have hlook : ∀ (e : Env) (p l : Option Nat),
      cacheLookup e store "GET" path p l = (none, false) := by
    intro e p l
    unfold cacheLookup
    simp [hmiss]
  refine ⟨?_, ?_, ?_, ?_, ?_⟩
  · simp [proxy_request, hlook, hfwd, decodeUtf8]
  · simp [proxy_request, hlook, hfwd, decodeUtf8]
  · simp [proxy_request, hlook, hfwd, decodeUtf8]
  · simp only [proxy_request, hlook]
    cases hf2 : forward_request jparse "GET" env2.origin with
    | error e => rfl
    | ok body => cases body <;> simp [decodeUtf8]
  · simp only [proxy_request, hlook]
    cases hf2 : forward_request jparse "GET" env2.origin with
    | error e => rfl
    | ok body => cases body <;> simp [decodeUtf8]

/-- Witness for C10: a 200 with an undecodable body is returned raw, the
store stays empty, and the follow-up request hits the origin again. -/
theorem miss_undecodable_body_not_cached_witness :
    (proxy_request noParse ⟨false, false, 0, .response 200 "ct" (.binary 7)⟩
        emptyStore "GET" "/api/requests?page=1" none none).1
      = .rawResponse (.binary 7) "application/json"
    ∧ (proxy_request noParse ⟨false, false, 0, .response 200 "ct" (.binary 7)⟩
        emptyStore "GET" "/api/requests?page=1" none none).2.1 = emptyStore
    ∧ (proxy_request noParse ⟨false, false, 9, .response 200 "ct" (.text "later")⟩
        emptyStore "GET" "/api/requests?page=1" none none).2.2.originCalled
      = true :=
  have h := miss_undecodable_body_not_cached noParse
    ⟨false, false, 0, .response 200 "ct" (.binary 7)⟩
    ⟨false, false, 9, .response 200 "ct" (.text "later")⟩
    emptyStore "/api/requests?page=1" none none none none 200 "ct" 7
    rfl rfl (by decide)
  ⟨h.1, h.2.1, h.2.2.2.1⟩

/-- C3: starting from the empty cache, a GET for a key that succeeds
against the origin with a UTF-8 body (and whose store write goes through)
stores the envelope encoding of the body, and a subsequent GET for the same
key is served from the cache — no synchronous origin call — with a response
body byte-for-byte identical to the first one (the decode of the stored
envelope yields exactly the payload that was encoded). -/
theorem miss_then_hit_roundtrip (jparse : String → Option JVal)
    (env1 env2 : Env) (path : String)
    (page limit page2 limit2 : Option Nat) (st : Nat) (ct : String) (s : String)
    (horigin : env1.origin = .response st ct (.text s)) (hst : st < 400)
    (hset : env1.setFails = false) (hget2 : env2.getFails = false) :
    (proxy_request jparse env1 emptyStore "GET" path page limit).1
        = .rawResponse (.text s) "application/json"
    ∧ (proxy_request jparse env1 emptyStore "GET" path page limit).2.1
        (cacheKey "GET" path) = some (dumps (encodeEnvelope s env1.now))
    ∧ (proxy_request jparse env2
          ((proxy_request jparse env1 emptyStore "GET" path page limit).2.1)
          "GET" path page2 limit2).1
        = .rawResponse (.text s) "application/json"
    ∧ (proxy_request jparse env2
          ((proxy_request jparse env1 emptyStore "GET" path page limit).2.1)
          "GET" path page2 limit2).2.2.originCalled = false := by
  have hfwd : forward_request jparse "GET" env1.origin = .ok (.text s) := by
    rw [horigin]; simp [forward_request, Nat.not_le.mpr hst]
  have hlook1 : ∀ (p l : Option Nat),
      cacheLookup env1 emptyStore "GET" path p l = (none, false) := by
    intro p l
    unfold cacheLookup
    simp [emptyStore]
  have hout1 : proxy_request jparse env1 emptyStore "GET" path page limit
      = (.rawResponse (.text s) "application/json",
          setStore emptyStore (cacheKey "GET" path) (dumps (encodeEnvelope s env1.now)),
          { storeGet := true, refreshScheduled := false,
            originCalled := true, storeSet := true }) := by
    simp [proxy_request, hlook1, hfwd, decodeUtf8, hset]
  rw [hout1]
  have hstored : setStore emptyStore (cacheKey "GET" path)
      (dumps (encodeEnvelope s env1.now)) (cacheKey "GET" path)
      = some (dumps (encodeEnvelope s env1.now)) := by
    simp [setStore]
  have hlook2 : cacheLookup env2
      (setStore emptyStore (cacheKey "GET" path) (dumps (encodeEnvelope s env1.now)))
      "GET" path page2 limit2
      = (some (.rawResponse (.text s) "application/json"), true) := by
    unfold cacheLookup
    rw [hstored]
    simp [hget2, dumps, blobTruthy, loads, hitServe, encodeEnvelope, lookupField,
      truthy, render]
  refine ⟨rfl, hstored, ?_, ?_⟩ <;> simp [proxy_request, hlook2]

/-- Witness for C3: after a 200 with body bytes "[1]" populates the empty
cache, a second request for the same key is served from the cache with the
identical bytes even though the origin is now unreachable. -/
theorem miss_then_hit_roundtrip_witness :
    (proxy_request noParse
        ⟨false, false, 3, .response 200 "application/json" (.text "[1]")⟩
        emptyStore "GET" "/api/requests?page=1" none none).1
      = .rawResponse (.text "[1]") "application/json"
    ∧ (proxy_request noParse ⟨false, false, 4, .netError "down"⟩
          ((proxy_request noParse
              ⟨false, false, 3, .response 200 "application/json" (.text "[1]")⟩
              emptyStore "GET" "/api/requests?page=1" none none).2.1)
          "GET" "/api/requests?page=1" none none).1
      = .rawResponse (.text "[1]") "application/json"
    ∧ (proxy_request noParse ⟨false, false, 4, .netError "down"⟩
          ((proxy_request noParse
              ⟨false, false, 3, .response 200 "application/json" (.text "[1]")⟩
              emptyStore "GET" "/api/requests?page=1" none none).2.1)
          "GET" "/api/requests?page=1" none none).2.2.originCalled = false :=
  have h := miss_then_hit_roundtrip noParse
    ⟨false, false, 3, .response 200 "application/json" (.text "[1]")⟩
    ⟨false, false, 4, .netError "down"⟩
    "/api/requests?page=1" none none none none 200 "application/json" "[1]"
    rfl (by decide) rfl rfl
  ⟨h.1, h.2.2.1, h.2.2.2⟩

/-- Counterexample to C9 as stated: an entry stored from an origin response
with Content-Type "text/plain" is re-emitted on the subsequent hit with
media type "application/json", not with the content type the origin sent. -/
theorem hit_media_type_counterexample :
    (proxy_request noParse ⟨false, false, 1, .netError "down"⟩
        ((proxy_request noParse
            ⟨false, false, 0, .response 200 "text/plain" (.text "hello")⟩
            emptyStore "GET" "/p" none none).2.1)
        "GET" "/p" none none).1
      = .rawResponse (.text "hello") "application/json"
    ∧ "application/json" ≠ "text/plain" := by
  constructor
  · have h := miss_then_hit_roundtrip noParse
      ⟨false, false, 0, .response 200 "text/plain" (.text "hello")⟩
      ⟨false, false, 1, .netError "down"⟩
      "/p" none none none none 200 "text/plain" "hello" rfl (by decide) rfl rfl
    exact h.2.2.1
  · decide

/-- C9 amended: on every cache hit served from a raw envelope, the decoded
payload is re-emitted with the constant media type "application/json",
regardless of the content type of the origin response the entry came from. -/
theorem hit_media_type_constant (jparse : String → Option JVal) (env : Env)
    (store : Store) (path : String) (page limit : Option Nat)
    (fields : List (String × JVal)) (d : JVal) (b : Bytes)
    (hget : env.getFails = false)
    (hstored : store (cacheKey "GET" path) = some (.json (.obj fields)))
    (hpayload : lookupField fields "payload" = some d)
    (hraw : truthy ((lookupField fields "is_raw").getD (.bool false)) = true)
    (hrender : render d = some b) :
    (proxy_request jparse env store "GET" path page limit).1
      = .rawResponse b "application/json" := by
  have hlook : cacheLookup env store "GET" path page limit
      = (some (.rawResponse b "application/json"), true) := by
    unfold cacheLookup
    rw [hstored]
    simp [hget, blobTruthy, loads, hitServe, hpayload, hraw, hrender]
  simp [proxy_request, hlook]

/-- Witness for the amended C9: a raw envelope with payload "x" is served
with media type "application/json". -/
theorem hit_media_type_constant_witness :
    (proxy_request noParse ⟨false, false, 5, .netError "down"⟩
        (setStore emptyStore (cacheKey "GET" "/p") (dumps (encodeEnvelope "x" 0)))
        "GET" "/p" none none).1
      = .rawResponse (.text "x") "application/json" :=
  hit_media_type_constant noParse ⟨false, false, 5, .netError "down"⟩
    (setStore emptyStore (cacheKey "GET" "/p") (dumps (encodeEnvelope "x" 0)))
    "/p" none none
    [("payload", .str "x"), ("is_raw", .bool true), ("timestamp", .num 0)]
    (.str "x") (.text "x") rfl (by simp [setStore, dumps, encodeEnvelope]) rfl rfl rfl

/-- Counterexample to C1 as stated: a stored value whose bytes do not parse
as a JSON *envelope* — here a plain JSON array — is not treated as a cache
miss: the request is answered from the cache through the structured
(legacy) path, no synchronous origin fetch happens, and the entry is not
overwritten. -/
theorem cache_non_envelope_not_miss_counterexample :
    (proxy_request noParse
        ⟨false, false, 0, .response 200 "application/json" (.text "fresh")⟩
        (setStore emptyStore (cacheKey "GET" "/p")
          (.json (.arr [.num 1, .num 2, .num 3])))
        "GET" "/p" (some 1) (some 2)).1
      = .jsonValue (.obj [("data", .arr [.num 1, .num 2]), ("total", .num 3),
          ("page", .num 1), ("limit", .num 2), ("total_pages", .num 2)])
    ∧ (proxy_request noParse
        ⟨false, false, 0, .response 200 "application/json" (.text "fresh")⟩
        (setStore emptyStore (cacheKey "GET" "/p")
          (.json (.arr [.num 1, .num 2, .num 3])))
        "GET" "/p" (some 1) (some 2)).2.2.originCalled = false
    ∧ (proxy_request noParse
        ⟨false, false, 0, .response 200 "application/json" (.text "fresh")⟩
        (setStore emptyStore (cacheKey "GET" "/p")
          (.json (.arr [.num 1, .num 2, .num 3])))
        "GET" "/p" (some 1) (some 2)).2.1 (cacheKey "GET" "/p")
      = some (.json (.arr [.num 1, .num 2, .num 3])) := by
  refine ⟨?_, ?_, ?_⟩ <;> rfl

/-- C1 amended: a store read error, or a stored value whose bytes do not
parse as JSON at all (the empty string included), is treated exactly as a
cache miss: the request never fails because of the cache layer — the
engine performs the synchronous origin fetch and delivers exactly its
outcome — and when the origin succeeds with a UTF-8-decodable body and the
store write goes through, the entry for the key is overwritten with a
valid envelope encoding.  (A stored value that parses as JSON but is not
an envelope is instead served from the cache via the structured path.) -/
theorem cache_failure_degrades_to_miss (jparse : String → Option JVal)
    (env : Env) (store : Store) (path : String) (page limit : Option Nat)
    (hbad : env.getFails = true
      ∨ ∃ s, store (cacheKey "GET" path) = some (.garbage s)) :
    (proxy_request jparse env store "GET" path page limit).2.2.originCalled = true
    ∧ (∀ e, forward_request jparse "GET" env.origin = .error e →
        (proxy_request jparse env store "GET" path page limit).1
          = .httpError e.status e.detail)
    ∧ (∀ b, forward_request jparse "GET" env.origin = .ok b →
        (proxy_request jparse env store "GET" path page limit).1
          = .rawResponse b "application/json"
        ∧ (∀ s, b = .text s → env.setFails = false →
            (proxy_request jparse env store "GET" path page limit).2.1
              (cacheKey "GET" path)
              = some (dumps (encodeEnvelope s env.now)))) := by
  have hlook : (cacheLookup env store "GET" path page limit).1 = none := by
    unfold cacheLookup
    rcases hbad with h | ⟨s, h⟩
    · simp [h]
    · rw [h]
      by_cases hs : s = ""
      · subst hs
        simp [blobTruthy]
      · simp [blobTruthy, hs, loads]
        split <;> rfl
  rcases hcl : cacheLookup env store "GET" path page limit with ⟨o, sched⟩
  have ho : o = none := by rw [hcl] at hlook; exact hlook
  subst ho
  refine ⟨?_, ?_, ?_⟩
  · simp only [proxy_request, hcl]
    cases hf : forward_request jparse "GET" env.origin with
    | error e => rfl
    | ok b => cases b <;> simp [decodeUtf8]
  · intro e he
    simp [proxy_request, hcl, he]
  · intro b hb
    constructor
    · simp only [proxy_request, hcl, hb]
      cases b <;> simp [decodeUtf8]
    · intro s hs hsetF
      subst hs
      simp [proxy_request, hcl, hb, decodeUtf8, hsetF, setStore]

/-- Witness for the amended C1: with unparseable bytes stored under the
key, the request still performs the synchronous origin fetch, returns the
origin body, and overwrites the entry with a valid envelope. -/
theorem cache_failure_degrades_to_miss_witness :
    (proxy_request noParse ⟨false, false, 2, .response 200 "ct" (.text "body")⟩
        (setStore emptyStore (cacheKey "GET" "/p") (.garbage "not json"))
        "GET" "/p" none none).2.2.originCalled = true
    ∧ (proxy_request noParse ⟨false, false, 2, .response 200 "ct" (.text "body")⟩
        (setStore emptyStore (cacheKey "GET" "/p") (.garbage "not json"))
        "GET" "/p" none none).1 = .rawResponse (.text "body") "application/json"
    ∧ (proxy_request noParse ⟨false, false, 2, .response 200 "ct" (.text "body")⟩
        (setStore emptyStore (cacheKey "GET" "/p") (.garbage "not json"))
        "GET" "/p" none none).2.1 (cacheKey "GET" "/p")
      = some (dumps (encodeEnvelope "body" 2)) := by
  have h := cache_failure_degrades_to_miss noParse
    ⟨false, false, 2, .response 200 "ct" (.text "body")⟩
    (setStore emptyStore (cacheKey "GET" "/p") (.garbage "not json"))
    "/p" none none (Or.inr ⟨"not json", by simp [setStore]⟩)
  have hf : forward_request noParse "GET"
      (OriginOutcome.response 200 "ct" (.text "body")) = .ok (.text "body") := rfl
  obtain ⟨h1, _, h3⟩ := h
  have h4 := h3 (.text "body") hf
  exact ⟨h1, h4.1, h4.2 "body" rfl rfl⟩

/-- Inversion for forward_request: a returned body can only come from a GET
whose origin responded with status below 400 and exactly that body. -/
theorem forward_request_ok_inv (jparse : String → Option JVal)
    (method : String) (origin : OriginOutcome) (b : Bytes)
    (h : forward_request jparse method origin = .ok b) :
    method = "GET" ∧ ∃ st ct, origin = .response st ct b ∧ st < 400 := by
  unfold forward_request at h
  by_cases hm : method = "GET"
  · subst hm
    refine ⟨rfl, ?_⟩
    simp only [if_pos rfl] at h
    cases origin with
    | netError msg => exact absurd h (by simp)
    | response st ct body =>
        by_cases hst : 400 ≤ st
        · simp [hst] at h
        · simp [hst] at h
          exact ⟨st, ct, by rw [h], by omega⟩
  · simp [hm] at h

/-- Witness for forward_request_ok_inv at a concrete input. -/
theorem forward_request_ok_inv_witness :
    "GET" = "GET" ∧ ∃ st ct,
      OriginOutcome.response 204 "ct" (.text "x") = .response st ct (.text "x")
      ∧ st < 400 :=
  forward_request_ok_inv noParse "GET" (.response 204 "ct" (.text "x"))
    (.text "x") rfl

/-- C5 amended: every write the engine ever performs on the cache store is
the envelope encoding of the body of an origin response — with status
below 400 (not necessarily 2xx) on the synchronous miss path, and with
status exactly 200 on the background refresh path — and always lands at
the request's own cache key. -/
theorem cache_write_policy (jparse : String → Option JVal) :
    (∀ (env : Env) (store : Store) (method path : String)
        (page limit : Option Nat) (k : String),
      (proxy_request jparse env store method path page limit).2.1 k ≠ store k →
      ∃ st ct s, env.origin = .response st ct (.text s) ∧ st < 400
        ∧ (proxy_request jparse env store method path page limit).2.1 k
            = some (dumps (encodeEnvelope s env.now))
        ∧ k = cacheKey method path ∧ method = "GET")
    ∧ (∀ (origin : OriginOutcome) (setFails : Bool) (now : Int)
        (key method : String) (store : Store) (k : String),
      update_cache_from_origin origin setFails now key method store k ≠ store k →
      ∃ ct s, origin = .response 200 ct (.text s)
        ∧ update_cache_from_origin origin setFails now key method store k
            = some (dumps (encodeEnvelope s now))
        ∧ k = key) := by
  constructor
  · intro env store method path page limit k hk
    rcases hcl : cacheLookup env store method path page limit with ⟨o, sched⟩
    cases o with
    | some r => simp [proxy_request, hcl] at hk
    | none =>
        cases hf : forward_request jparse method env.origin with
        | error e => simp [proxy_request, hcl, hf] at hk
        | ok b =>
            obtain ⟨hm, st, ct, horig, hst⟩ :=
              forward_request_ok_inv jparse method env.origin b hf
            subst hm
            cases b with
            | binary id => simp [proxy_request, hcl, hf, decodeUtf8] at hk
            | text s =>
                cases hsf : env.setFails with
                | true => simp [proxy_request, hcl, hf, decodeUtf8, hsf] at hk
                | false =>
                    by_cases hkk : k = cacheKey "GET" path
                    · subst hkk
                      refine ⟨st, ct, s, horig, hst, ?_, rfl, rfl⟩
                      simp [proxy_request, hcl, hf, decodeUtf8, hsf, setStore]
                    · exfalso
                      apply hk
                      simp [proxy_request, hcl, hf, decodeUtf8, hsf, setStore, hkk]
  · intro origin setFails now key method store k hk
    by_cases hm : method = "GET"
    · subst hm
      cases origin with
      | netError m =>
          exact absurd (by simp [update_cache_from_origin]) hk
      | response st ct b =>
          by_cases hst : st = 200
          · subst hst
            cases b with
            | binary id =>
                exact absurd (by simp [update_cache_from_origin, decodeUtf8]) hk
            | text s =>
                cases hsf : setFails with
                | true =>
                    exact absurd (by simp [update_cache_from_origin, decodeUtf8, hsf]) hk
                | false =>
                    by_cases hkk : k = key
                    · subst hkk
                      refine ⟨ct, s, rfl, ?_, rfl⟩
                      simp [update_cache_from_origin, decodeUtf8, hsf, setStore]
                    · exfalso
                      apply hk
                      simp [update_cache_from_origin, decodeUtf8, hsf, setStore, hkk]
          · exact absurd (by simp [update_cache_from_origin, decodeUtf8, hst]) hk
    · exact absurd (by simp [update_cache_from_origin, hm]) hk

/-- Counterexample to C5 as stated: a 302 origin response — outside the 2xx
range — is written to the cache store by the synchronous miss path. -/
theorem cache_write_non_2xx_counterexample :
    (proxy_request noParse
        ⟨false, false, 0, .response 302 "ct" (.text "moved")⟩
        emptyStore "GET" "/p" none none).2.1 (cacheKey "GET" "/p")
      = some (dumps (encodeEnvelope "moved" 0))
    ∧ ¬(200 ≤ 302 ∧ 302 ≤ 299) := by
  exact ⟨rfl, by omega⟩

/-- Witness for the amended C5: concrete writes on both paths, each
produced by an origin response with body "ok". -/
theorem cache_write_policy_witness :
    (∃ st ct s,
      (OriginOutcome.response 204 "ct" (Bytes.text "ok"))
          = OriginOutcome.response st ct (.text s)
      ∧ st < 400
      ∧ (proxy_request noParse ⟨false, false, 0, .response 204 "ct" (.text "ok")⟩
          emptyStore "GET" "/p" none none).2.1 (cacheKey "GET" "/p")
          = some (dumps (encodeEnvelope s 0))
      ∧ cacheKey "GET" "/p" = cacheKey "GET" "/p" ∧ "GET" = "GET")
    ∧ (∃ ct s,
      (OriginOutcome.response 200 "ct" (Bytes.text "ok"))
          = OriginOutcome.response 200 ct (.text s)
      ∧ update_cache_from_origin (.response 200 "ct" (.text "ok")) false 7
          "K" "GET" emptyStore "K"
          = some (dumps (encodeEnvelope s 7))
      ∧ "K" = "K") :=
  ⟨(cache_write_policy noParse).1
      ⟨false, false, 0, .response 204 "ct" (.text "ok")⟩
      emptyStore "GET" "/p" none none (cacheKey "GET" "/p")
      (fun heq => Option.noConfusion heq),
   (cache_write_policy noParse).2
      (.response 200 "ct" (.text "ok")) false 7 "K" "GET" emptyStore "K"
      (fun heq => Option.noConfusion heq)⟩

/-- Decimal character list (most significant digit first) of a natural
number — the content of Python str(n) and of Nat.repr (bridged below). -/
def decChars (n : Nat) : List Char :=
  if n = 0 then ['0'] else (Nat.digits 10 n).reverse.map Nat.digitChar

/-- The fuel-based core of Nat.repr computes exactly the decimal character
list, for sufficient fuel. -/
theorem toDigitsCore_eq_decChars :
    ∀ (fuel n : Nat) (ds : List Char), n < fuel →
      Nat.toDigitsCore 10 fuel n ds = decChars n ++ ds := by
  intro fuel
  induction fuel with
  | zero => intro n ds h; omega
  | succ f ih =>
      intro n ds h
      simp only [Nat.toDigitsCore]
      by_cases h0 : n / 10 = 0
      · have hn10 : n < 10 := by omega
        simp only [h0, if_pos rfl]
        by_cases hn : n = 0
        · subst hn; rfl
        · rw [decChars, if_neg hn,
            Nat.digits_def' (by norm_num : (1 : Nat) < 10) (Nat.pos_of_ne_zero hn),
            h0, Nat.digits_zero, Nat.mod_eq_of_lt hn10]
          rfl
      · rw [if_neg h0]
        have hlt : n / 10 < f := by omega
        rw [ih (n / 10) (Nat.digitChar (n % 10) :: ds) hlt]
        have hn : n ≠ 0 := by omega
        simp only [decChars, if_neg hn, if_neg h0]
        rw [Nat.digits_def' (by norm_num : (1 : Nat) < 10) (Nat.pos_of_ne_zero hn)]
        simp [List.append_assoc]

/-- The character content of Nat.repr is the decimal character list. -/
theorem repr_data (n : Nat) : (Nat.repr n).data = decChars n := by
  show (Nat.toDigits 10 n).asString.data = decChars n
  rw [Nat.toDigits, toDigitsCore_eq_decChars (n + 1) n [] (Nat.lt_succ_self n)]
  simp [List.asString]

/-- Nat.digitChar is injective on digits. -/
theorem digitChar_inj_lt10 :
    ∀ a, a < 10 → ∀ b, b < 10 → Nat.digitChar a = Nat.digitChar b → a = b := by
  decide

/-- Mapping digitChar over digit lists is injective. -/
theorem map_digitChar_inj :
    ∀ (l₁ l₂ : List Nat), (∀ x ∈ l₁, x < 10) → (∀ x ∈ l₂, x < 10) →
      l₁.map Nat.digitChar = l₂.map Nat.digitChar → l₁ = l₂ := by
  intro l₁
  induction l₁ with
  | nil =>
      intro l₂ _ _ h
      cases l₂ with
      | nil => rfl
      | cons b t => simp at h
  | cons a t ih =>
      intro l₂ h1 h2 h
      cases l₂ with
      | nil => simp at h
      | cons b t₂ =>
          simp only [List.map_cons, List.cons.injEq] at h
          have hab := digitChar_inj_lt10 a (h1 a (List.mem_cons_self a t))
            b (h2 b (List.mem_cons_self b t₂)) h.1
          subst hab
          rw [ih t₂ (fun x hx => h1 x (List.mem_cons_of_mem _ hx))
            (fun x hx => h2 x (List.mem_cons_of_mem _ hx)) h.2]

/-- The decimal character list determines the number. -/
theorem decChars_inj {n m : Nat} (h : decChars n = decChars m) : n = m := by
  have hdig : ∀ k : Nat, ∀ x ∈ (Nat.digits 10 k).reverse, x < 10 := by
    intro k x hx
    exact Nat.digits_lt_base (by norm_num) (List.mem_reverse.mp hx)
  by_cases hn : n = 0 <;> by_cases hm : m = 0
  · omega
  · exfalso
    rw [decChars, if_pos hn, decChars, if_neg hm] at h
    have h0 : ([0] : List Nat).map Nat.digitChar = ['0'] := rfl
    have := map_digitChar_inj [0] (Nat.digits 10 m).reverse (by decide)
      (hdig m) (h0.trans h)
    have hrev : Nat.digits 10 m = [0] := by
      have := congrArg List.reverse this
      simpa using this.symm
    have := Nat.ofDigits_digits 10 m
    rw [hrev] at this
    simp [Nat.ofDigits] at this
    omega
  · exfalso
    rw [decChars, if_neg hn, decChars, if_pos hm] at h
    have h0 : ([0] : List Nat).map Nat.digitChar = ['0'] := rfl
    have := map_digitChar_inj [0] (Nat.digits 10 n).reverse (by decide)
      (hdig n) (h0.trans h.symm)
    have hrev : Nat.digits 10 n = [0] := by
      have := congrArg List.reverse this
      simpa using this.symm
    have := Nat.ofDigits_digits 10 n
    rw [hrev] at this
    simp [Nat.ofDigits] at this
    omega
  · rw [decChars, if_neg hn, decChars, if_neg hm] at h
    have := map_digitChar_inj _ _ (hdig n) (hdig m) h
    have := congrArg List.reverse this
    simp only [List.reverse_reverse] at this
    exact Nat.digits.injective 10 this

/-- Decimal character lists never contain the separator character. -/
theorem decChars_amp_free (n : Nat) : '&' ∉ decChars n := by
  have h10 : ∀ d, d < 10 → Nat.digitChar d ≠ '&' := by decide
  unfold decChars
  by_cases hn : n = 0
  · simp [hn]
  · rw [if_neg hn]
    intro hmem
    simp only [List.mem_map, List.mem_reverse] at hmem
    obtain ⟨d, hd, hdc⟩ := hmem
    exact h10 d (Nat.digits_lt_base (by norm_num) hd) hdc

/-- A tail of the query string at a parameter-value boundary: either
nothing follows, or the next segment starts with the separator. -/
def SepTail (t : List Char) : Prop := t = [] ∨ ∃ u, t = '&' :: u

/-- Splitting at the first separator is unambiguous: two decompositions
value-then-tail of the same character list agree, provided the values are
separator-free and the tails are empty or separator-led. -/
theorem seg_split :
    ∀ (v₁ : List Char) {v₂ t₁ t₂ : List Char},
      '&' ∉ v₁ → '&' ∉ v₂ → SepTail t₁ → SepTail t₂ →
      v₁ ++ t₁ = v₂ ++ t₂ → v₁ = v₂ ∧ t₁ = t₂ := by
  intro v₁
  induction v₁ with
  | nil =>
      intro v₂ t₁ t₂ h1 h2 s1 s2 h
      cases v₂ with
      | nil => exact ⟨rfl, h⟩
      | cons c cs =>
          exfalso
          simp only [List.nil_append, List.cons_append] at h
          rcases s1 with rfl | ⟨u, rfl⟩
          · exact List.noConfusion h
          · have hc : '&' = c := (List.cons.injEq _ _ _ _ ▸ h).1
            exact h2 (hc ▸ List.mem_cons_self c cs)
  | cons a as ih =>
      intro v₂ t₁ t₂ h1 h2 s1 s2 h
      cases v₂ with
      | nil =>
          exfalso
          simp only [List.nil_append, List.cons_append] at h
          rcases s2 with rfl | ⟨u, rfl⟩
          · exact List.noConfusion h
          · have hc : a = '&' := (List.cons.injEq _ _ _ _ ▸ h).1
            exact h1 (hc ▸ List.mem_cons_self a as)
      | cons b bs =>
          simp only [List.cons_append, List.cons.injEq] at h
          obtain ⟨hab, h'⟩ := h
          subst hab
          have hr := ih (fun hm => h1 (List.mem_cons_of_mem _ hm))
            (fun hm => h2 (List.mem_cons_of_mem _ hm)) s1 s2 h'
          exact ⟨by rw [hr.1], hr.2⟩

/-- Concatenation preserves the boundary shape. -/
theorem sepTail_append {t₁ t₂ : List Char} (h1 : SepTail t₁) (h2 : SepTail t₂) :
    SepTail (t₁ ++ t₂) := by
  rcases h1 with rfl | ⟨u, rfl⟩
  · simpa using h2
  · exact Or.inr ⟨u ++ t₂, rfl⟩

/-- Well-formed optional parameter values: supplied values are nonempty
(Python truthiness would otherwise drop them) and separator-free. -/
def GoodOpt : Option String → Prop
  | none => True
  | some s => s ≠ "" ∧ '&' ∉ s.data

/-- An optional parameter contributes an empty or separator-led block. -/
theorem optQuery_sepTail (name : String) (v : Option String) :
    SepTail (optQuery name v).data := by
  cases v with
  | none => exact Or.inl rfl
  | some s =>
      by_cases hs : s = ""
      · simp [optQuery, hs]
        exact Or.inl rfl
      · simp only [optQuery, if_neg hs]
        exact Or.inr ⟨(name ++ "=" ++ s).data, by simp [String.data_append]⟩

/-- Character content of a supplied (truthy) optional parameter. -/
theorem optQuery_data_some (name s : String) (hs : s ≠ "") :
    (optQuery name (some s)).data = '&' :: (name.data ++ '=' :: s.data) := by
  simp only [optQuery, if_neg hs]
  show ("&" ++ name ++ "=" ++ s).data = _
  simp only [String.data_append, List.append_assoc]
  rfl

/-- Consuming one optional-parameter block: if neither remainder can start
with this parameter's own tag, equality of block-plus-remainder forces the
block values and the remainders to agree. -/
theorem optQuery_step (name : String) (v₁ v₂ : Option String)
    (r₁ r₂ : List Char) (h₁ : GoodOpt v₁) (h₂ : GoodOpt v₂)
    (hs₁ : SepTail r₁) (hs₂ : SepTail r₂)
    (hnt₁ : ∀ u, r₁ ≠ '&' :: (name.data ++ '=' :: u))
    (hnt₂ : ∀ u, r₂ ≠ '&' :: (name.data ++ '=' :: u))
    (h : (optQuery name v₁).data ++ r₁ = (optQuery name v₂).data ++ r₂) :
    v₁ = v₂ ∧ r₁ = r₂ := by
  cases v₁ with
  | none =>
      cases v₂ with
      | none => exact ⟨rfl, h⟩
      | some s₂ =>
          exfalso
          rw [optQuery_data_some name s₂ h₂.1] at h
          simp only [optQuery, String.data_append, List.nil_append,
            List.cons_append, List.append_assoc] at h
          exact hnt₁ (s₂.data ++ r₂) (by rw [h])
  | some s₁ =>
      cases v₂ with
      | none =>
          exfalso
          rw [optQuery_data_some name s₁ h₁.1] at h
          simp only [optQuery, String.data_append, List.nil_append,
            List.cons_append, List.append_assoc] at h
          exact hnt₂ (s₁.data ++ r₁) (by rw [← h])
      | some s₂ =>
          rw [optQuery_data_some name s₁ h₁.1, optQuery_data_some name s₂ h₂.1] at h
          simp only [List.cons_append, List.cons.injEq, List.append_assoc] at h
          have h' := List.append_cancel_left h.2
          simp only [List.cons_append, List.cons.injEq, true_and] at h'
          have hsp := seg_split s₁.data h₁.2 h₂.2 hs₁ hs₂ h'
          exact ⟨by rw [String.ext hsp.1], hsp.2⟩

/-- The blocks that follow the status block can never start with the
status tag (their own tags differ at a fixed character). -/
theorem searchRegion_not_status (se rg : Option String)
    (hse : GoodOpt se) (hrg : GoodOpt rg) (u : List Char) :
    (optQuery "search" se).data ++ (optQuery "region" rg).data
      ≠ '&' :: ("status".data ++ '=' :: u) := by
  cases se with
  | some s =>
      rw [optQuery_data_some "search" s hse.1]
      intro h
      have h2 : (some 'e' : Option Char) = some 't' :=
        congrArg (fun l => l[2]?) h
      exact absurd h2 (by decide)
  | none =>
      cases rg with
      | none => intro h; exact List.noConfusion h
      | some s =>
          rw [optQuery_data_some "region" s hrg.1]
          intro h
          have h2 : (some 'r' : Option Char) = some 's' :=
            congrArg (fun l => l[1]?) h
          exact absurd h2 (by decide)

/-- The region block can never start with the search tag. -/
theorem region_not_search (rg : Option String) (hrg : GoodOpt rg)
    (u : List Char) :
    (optQuery "region" rg).data ≠ '&' :: ("search".data ++ '=' :: u) := by
  cases rg with
  | none => intro h; exact List.noConfusion h
  | some s =>
      rw [optQuery_data_some "region" s hrg.1]
      intro h
      have h2 : (some 'r' : Option Char) = some 's' :=
        congrArg (fun l => l[1]?) h
      exact absurd h2 (by decide)

/-- The optional-parameter suffix of the upstream path determines the three
optional parameters, for well-formed values. -/
theorem opts_inj (st₁ se₁ rg₁ st₂ se₂ rg₂ : Option String)
    (g1 : GoodOpt st₁) (g2 : GoodOpt se₁) (g3 : GoodOpt rg₁)
    (g4 : GoodOpt st₂) (g5 : GoodOpt se₂) (g6 : GoodOpt rg₂)
    (h : (optQuery "status" st₁).data
          ++ ((optQuery "search" se₁).data ++ (optQuery "region" rg₁).data)
        = (optQuery "status" st₂).data
          ++ ((optQuery "search" se₂).data ++ (optQuery "region" rg₂).data)) :
    st₁ = st₂ ∧ se₁ = se₂ ∧ rg₁ = rg₂ := by
  obtain ⟨hst, hrest⟩ := optQuery_step "status" st₁ st₂ _ _ g1 g4
    (sepTail_append (optQuery_sepTail _ _) (optQuery_sepTail _ _))
    (sepTail_append (optQuery_sepTail _ _) (optQuery_sepTail _ _))
    (searchRegion_not_status se₁ rg₁ g2 g3)
    (searchRegion_not_status se₂ rg₂ g5 g6) h
  obtain ⟨hse, hrest2⟩ := optQuery_step "search" se₁ se₂ _ _ g2 g5
    (optQuery_sepTail _ _) (optQuery_sepTail _ _)
    (region_not_search rg₁ g3) (region_not_search rg₂ g6) hrest
  obtain ⟨hrg, _⟩ := optQuery_step "region" rg₁ rg₂ [] [] g3 g6
    (Or.inl rfl) (Or.inl rfl)
    (fun u h' => List.noConfusion h') (fun u h' => List.noConfusion h')
    (by simpa using hrest2)
  exact ⟨hst, hse, hrg⟩

/-- Separator-free strings (no '&' character). -/
def AmpFree (s : String) : Prop := '&' ∉ s.data

/-- Stripping one separator character and a fixed label from both sides of
a segment equation. -/
theorem cons_append_cancel {c : Char} {L A B : List Char}
    (h : c :: L.append A = c :: L.append B) : A = B := by
  injection h with h1 h2
  rw [List.append_eq, List.append_eq] at h2
  exact List.append_cancel_left h2

/-- C6 amended: cache-key derivation for the requests endpoint is
deterministic — a pure function of (method, path, query parameters) — and
is injective on the parameter tuple provided no supplied string value
contains the separator character '&' and no optional parameter is supplied
as the empty string: under those provisos, two requests whose parameter
combinations differ (a different value of page, limit, sort_by, order,
status, search or region, or an optional parameter present in one and
absent in the other) always produce different cache keys. -/
theorem requests_cache_key_inj :
    (∀ (p l : Nat) (sb o : String) (st se rg : Option String),
      cacheKey "GET" (requestsPath p l sb o st se rg)
        = cacheKey "GET" (requestsPath p l sb o st se rg))
    ∧ (∀ (p₁ l₁ : Nat) (sb₁ o₁ : String) (st₁ se₁ rg₁ : Option String)
        (p₂ l₂ : Nat) (sb₂ o₂ : String) (st₂ se₂ rg₂ : Option String),
      AmpFree sb₁ → AmpFree o₁ → GoodOpt st₁ → GoodOpt se₁ → GoodOpt rg₁ →
      AmpFree sb₂ → AmpFree o₂ → GoodOpt st₂ → GoodOpt se₂ → GoodOpt rg₂ →
      cacheKey "GET" (requestsPath p₁ l₁ sb₁ o₁ st₁ se₁ rg₁)
        = cacheKey "GET" (requestsPath p₂ l₂ sb₂ o₂ st₂ se₂ rg₂) →
      p₁ = p₂ ∧ l₁ = l₂ ∧ sb₁ = sb₂ ∧ o₁ = o₂
        ∧ st₁ = st₂ ∧ se₁ = se₂ ∧ rg₁ = rg₂) := by
  constructor
  · intro p l sb o st se rg; rfl
  · intro p₁ l₁ sb₁ o₁ st₁ se₁ rg₁ p₂ l₂ sb₂ o₂ st₂ se₂ rg₂
      hsb₁ ho₁ hst₁ hse₁ hrg₁ hsb₂ ho₂ hst₂ hse₂ hrg₂ hkey
    have hd := congrArg String.data hkey
    simp only [cacheKey, requestsPath, String.data_append, List.append_assoc,
      repr_data] at hd
    have hd1 := List.append_cancel_left hd
    have hd2 := List.append_cancel_left hd1
    have hd3 := List.append_cancel_left hd2
    obtain ⟨hpd, hd4⟩ := seg_split (decChars p₁) (decChars_amp_free p₁)
      (decChars_amp_free p₂) (Or.inr ⟨_, rfl⟩) (Or.inr ⟨_, rfl⟩) hd3
    have hd5 := cons_append_cancel hd4
    obtain ⟨hld, hd6⟩ := seg_split (decChars l₁) (decChars_amp_free l₁)
      (decChars_amp_free l₂) (Or.inr ⟨_, rfl⟩) (Or.inr ⟨_, rfl⟩) hd5
    have hd7 := cons_append_cancel hd6
    obtain ⟨hsbd, hd8⟩ := seg_split sb₁.data hsb₁ hsb₂
      (Or.inr ⟨_, rfl⟩) (Or.inr ⟨_, rfl⟩) hd7
    have hd9 := cons_append_cancel hd8
    obtain ⟨hod, hd10⟩ := seg_split o₁.data ho₁ ho₂
      (sepTail_append (optQuery_sepTail _ _)
        (sepTail_append (optQuery_sepTail _ _) (optQuery_sepTail _ _)))
      (sepTail_append (optQuery_sepTail _ _)
        (sepTail_append (optQuery_sepTail _ _) (optQuery_sepTail _ _)))
      hd9
    obtain ⟨hst, hse, hrg⟩ := opts_inj st₁ se₁ rg₁ st₂ se₂ rg₂
      hst₁ hse₁ hrg₁ hst₂ hse₂ hrg₂ hd10
    exact ⟨decChars_inj hpd, decChars_inj hld, String.ext hsbd,
      String.ext hod, hst, hse, hrg⟩

/-- Counterexample to C6 as stated: key derivation is not injective on
query-parameter combinations.  A search value containing '&' and '='
collides with a genuinely different combination in which region is a
separate parameter, and an optional parameter supplied as the empty string
collides with the same request without that parameter. -/
theorem requests_cache_key_counterexample :
    cacheKey "GET"
        (requestsPath 1 10 "default" "desc" none (some "a&region=b") none)
      = cacheKey "GET"
        (requestsPath 1 10 "default" "desc" none (some "a") (some "b"))
    ∧ (some "a&region=b" : Option String) ≠ some "a"
    ∧ cacheKey "GET" (requestsPath 1 10 "default" "desc" (some "") none none)
      = cacheKey "GET" (requestsPath 1 10 "default" "desc" none none none)
    ∧ (some "" : Option String) ≠ none :=
  ⟨rfl, by decide, rfl, by decide⟩

/-- Witness for the amended C6 at a concrete well-formed parameter tuple. -/
theorem requests_cache_key_inj_witness :
    1 = 1 ∧ 25 = 25 ∧ "default" = "default" ∧ "desc" = "desc"
    ∧ (some "flood" : Option String) = some "flood"
    ∧ (none : Option String) = none ∧ (none : Option String) = none :=
  requests_cache_key_inj.2 1 25 "default" "desc" (some "flood") none none
    1 25 "default" "desc" (some "flood") none none
    (by unfold AmpFree; decide) (by unfold AmpFree; decide)
    ⟨by decide, by decide⟩ trivial trivial
    (by unfold AmpFree; decide) (by unfold AmpFree; decide)
    ⟨by decide, by decide⟩ trivial trivial rfl
